import Mathlib

/-!
Verification of the ptx-jesuit-go specification against its sources.

The Go sources are shallowly embedded: Go strings and byte slices become
`List Nat` of byte values (or Lean `String` where the Go code only ever
concatenates or compares ASCII text), `math/big` integers and BN254 scalar
field elements become `Nat` with explicit reduction modulo the field prime,
and fallible functions return `Except String`.  External library calls
(crypto/sha256, the redis client) are embedded by their documented
behaviour.  The Poseidon constant tables (poseidonC2 .. poseidonS5 in the
crypto package, C_T2 .. S_T5 in the circuit poseidon package) live in a
source file that is not part of the extract; the embeddings are therefore
parameterised over a `PoseidonConstants` record, as described in the
specification section on PoseidonParams.
-/

set_option maxRecDepth 100000

namespace Jesuit

/-- The BN254 scalar field prime, mirroring SNARK_FIELD_SIZE in
src/pkg/crypto/crypto.go. -/
def SNARK_FIELD_SIZE : Nat :=
  21888242871839275222246405745257275088548364400416034343698204186575808495617

/-- Field addition: gnark fr.Element.Add keeps values reduced modulo the
prime. -/
def fAdd (a b : Nat) : Nat := (a + b) % SNARK_FIELD_SIZE

/-- Field multiplication: gnark fr.Element.Mul keeps values reduced modulo
the prime. -/
def fMul (a b : Nat) : Nat := (a * b) % SNARK_FIELD_SIZE

/-- Embeds getFr of src/unnamed/part_000 (and fr.Element.SetBigInt in
general): a big integer is reduced into the scalar field.  Table entries are
carried as the numeric value of their hex string. -/
def getFr (n : Nat) : Nat := n % SNARK_FIELD_SIZE

/-- Big-endian interpretation of a byte list as an unsigned integer,
embedding big.Int.SetBytes. -/
def beNat (bytes : List Nat) : Nat :=
  bytes.foldl (fun acc b => acc * 256 + b) 0

/-! ## SHA-256

The Go sources call crypto/sha256 from the standard library; the function is
embedded here in full (FIPS 180-4) over byte lists, with 32-bit words as
`Nat` reduced modulo 2^32 wherever overflow matters. -/

namespace Sha256

/-- Reduction to a 32-bit word. -/
def w32 (x : Nat) : Nat := x % 4294967296

/-- Right rotation of a 32-bit word. -/
def rotr (x n : Nat) : Nat := w32 ((x >>> n) ||| (x <<< (32 - n)))

/-- Bitwise complement of a 32-bit word. -/
def compl32 (x : Nat) : Nat := x ^^^ 4294967295

/-- The choice function of FIPS 180-4. -/
def ch (x y z : Nat) : Nat := (x &&& y) ^^^ (compl32 x &&& z)

/-- The majority function of FIPS 180-4. -/
def maj (x y z : Nat) : Nat := (x &&& y) ^^^ (x &&& z) ^^^ (y &&& z)

/-- Big sigma 0. -/
def bsig0 (x : Nat) : Nat := rotr x 2 ^^^ rotr x 13 ^^^ rotr x 22

/-- Big sigma 1. -/
def bsig1 (x : Nat) : Nat := rotr x 6 ^^^ rotr x 11 ^^^ rotr x 25

/-- Small sigma 0. -/
def ssig0 (x : Nat) : Nat := rotr x 7 ^^^ rotr x 18 ^^^ (x >>> 3)

/-- Small sigma 1. -/
def ssig1 (x : Nat) : Nat := rotr x 17 ^^^ rotr x 19 ^^^ (x >>> 10)

/-- The eight initial hash values of FIPS 180-4, in decimal. -/
def iv : List Nat :=
  [1779033703, 3144134277, 1013904242, 2773480762,
   1359893119, 2600822924, 528734635, 1541459225]

/-- The 64 round constants of FIPS 180-4, in decimal. -/
def K : List Nat :=
  [1116352408, 1899447441, 3049323471, 3921009573, 961987163,
   1508970993, 2453635748, 2870763221, 3624381080, 310598401,
   607225278, 1426881987, 1925078388, 2162078206, 2614888103,
   3248222580, 3835390401, 4022224774, 264347078, 604807628,
   770255983, 1249150122, 1555081692, 1996064986, 2554220882,
   2821834349, 2952996808, 3210313671, 3336571891, 3584528711,
   113926993, 338241895, 666307205, 773529912, 1294757372,
   1396182291, 1695183700, 1986661051, 2177026350, 2456956037,
   2730485921, 2820302411, 3259730800, 3345764771, 3516065817,
   3600352804, 4094571909, 275423344, 430227734, 506948616,
   659060556, 883997877, 958139571, 1322822218, 1537002063,
   1747873779, 1955562222, 2024104815, 2227730452, 2361852424,
   2428436474, 2756734187, 3204031479, 3329325298]

/-- Big-endian serialization of a 32-bit word to four bytes. -/
def u32be (x : Nat) : List Nat :=
  [(x >>> 24) % 256, (x >>> 16) % 256, (x >>> 8) % 256, x % 256]

/-- Big-endian serialization of a 64-bit value to eight bytes. -/
def u64be (x : Nat) : List Nat :=
  [(x >>> 56) % 256, (x >>> 48) % 256, (x >>> 40) % 256, (x >>> 32) % 256,
   (x >>> 24) % 256, (x >>> 16) % 256, (x >>> 8) % 256, x % 256]

/-- Message padding: append 0x80, zeros to 56 mod 64, then the bit length as
a 64-bit big-endian value. -/
def pad (msg : List Nat) : List Nat :=
  let len := msg.length
  let zeros := (56 + 64 - (len + 1) % 64) % 64
  msg ++ [0x80] ++ List.replicate zeros 0 ++ u64be (len * 8)

/-- The first sixteen schedule words of a 64-byte block. -/
def blockWords (block : List Nat) : List Nat :=
  (List.range 16).map fun t =>
    (block.getD (t * 4) 0) <<< 24 ||| (block.getD (t * 4 + 1) 0) <<< 16 |||
    (block.getD (t * 4 + 2) 0) <<< 8 ||| (block.getD (t * 4 + 3) 0)

/-- Extension of the schedule to 64 words. -/
def schedule (block : List Nat) : List Nat :=
  (List.range 48).foldl
    (fun w t =>
      w ++ [w32 (ssig1 (w.getD (t + 14) 0) + w.getD (t + 9) 0 +
                 ssig0 (w.getD (t + 1) 0) + w.getD t 0)])
    (blockWords block)

/-- The eight-word working state of the compression function. -/
structure State where
  a : Nat
  b : Nat
  c : Nat
  d : Nat
  e : Nat
  f : Nat
  g : Nat
  h : Nat

/-- One round of the compression function. -/
def round (ws : List Nat) (s : State) (t : Nat) : State :=
  let t1 := w32 (s.h + bsig1 s.e + ch s.e s.f s.g + K.getD t 0 + ws.getD t 0)
  let t2 := w32 (bsig0 s.a + maj s.a s.b s.c)
  ⟨w32 (t1 + t2), s.a, s.b, s.c, w32 (s.d + t1), s.e, s.f, s.g⟩

/-- Compression of one 64-byte block into the running eight-word digest
state. -/
def compress (hs : List Nat) (block : List Nat) : List Nat :=
  let ws := schedule block
  let s0 : State := ⟨hs.getD 0 0, hs.getD 1 0, hs.getD 2 0, hs.getD 3 0,
                     hs.getD 4 0, hs.getD 5 0, hs.getD 6 0, hs.getD 7 0⟩
  let s := (List.range 64).foldl (round ws) s0
  [w32 (hs.getD 0 0 + s.a), w32 (hs.getD 1 0 + s.b), w32 (hs.getD 2 0 + s.c),
   w32 (hs.getD 3 0 + s.d), w32 (hs.getD 4 0 + s.e), w32 (hs.getD 5 0 + s.f),
   w32 (hs.getD 6 0 + s.g), w32 (hs.getD 7 0 + s.h)]

/-- Splits a padded message into 64-byte blocks; the fuel argument bounds the
recursion by the list length. -/
def chunks : Nat → List Nat → List (List Nat)
  | 0, _ => []
  | _ + 1, [] => []
  | fuel + 1, l => l.take 64 :: chunks fuel (l.drop 64)

end Sha256

/-- The SHA-256 digest of a byte list, as a list of 32 bytes.  This embeds
every call to sha256.Sum256 in the Go sources. -/
def sha256 (msg : List Nat) : List Nat :=
  let padded := Sha256.pad msg
  let blocks := Sha256.chunks padded.length padded
  (blocks.foldl Sha256.compress Sha256.iv).flatMap Sha256.u32be

/-! ## String and number encoding helpers

Go strings are byte sequences; where the sources hash or split them the
embedding uses `List Nat` byte values, and where they only concatenate or
compare ASCII text it uses Lean strings. -/

/-- Lowercase hex digit characters, as used by hex.EncodeToString. -/
def hexDigitChar (d : Nat) : Char :=
  "0123456789abcdef".data.getD d '0'

/-- Embeds hex.EncodeToString: two lowercase hex digits per byte. -/
def hexEncode (bytes : List Nat) : String :=
  String.mk (bytes.flatMap fun b => [hexDigitChar (b / 16), hexDigitChar (b % 16)])

/-- Numeric value of a hex digit character, upper or lower case.  Characters
outside the hex alphabet map to 0; every call site in the sources passes the
output of hex.EncodeToString, so this case never arises. -/
def hexCharVal (c : Char) : Nat :=
  if '0' ≤ c ∧ c ≤ '9' then c.toNat - '0'.toNat
  else if 'a' ≤ c ∧ c ≤ 'f' then c.toNat - 'a'.toNat + 10
  else if 'A' ≤ c ∧ c ≤ 'F' then c.toNat - 'A'.toNat + 10
  else 0

/-- Embeds big.Int.SetString with base 16 on the hex strings the sources
produce. -/
def parseHex (s : String) : Nat :=
  s.data.foldl (fun acc c => acc * 16 + hexCharVal c) 0

/-- Embeds big.Int.SetString with base 10 on the decimal strings carried in
publicSignals; a failed parse leaves the zero value, mirroring the Go call
sites, which ignore the failure flag. -/
def parseDec (s : String) : Nat :=
  if s.data ≠ [] ∧ s.data.all (fun c => decide ('0' ≤ c ∧ c ≤ '9')) then
    s.data.foldl (fun acc c => acc * 10 + (c.toNat - '0'.toNat)) 0
  else 0

namespace Crypto

/-- Embeds crypto.Sha256Hex of src/pkg/crypto/crypto.go. -/
def Sha256Hex (data : List Nat) : String :=
  hexEncode (sha256 data)

/-- Embeds crypto.SplitHashToFieldElements of src/pkg/crypto/crypto.go: the
hex digest is read as one 256-bit integer, the low 128 bits become p1 and
the shifted high 128 bits become p2, both reduced into the field by
fr.Element.SetBigInt. -/
def SplitHashToFieldElements (hexString : String) : Nat × Nat :=
  let fullValue := parseHex hexString
  let mask128 := (1 <<< 128) - 1
  let p1Int := fullValue &&& mask128
  let p2Int := (fullValue >>> 128) &&& mask128
  (p1Int % SNARK_FIELD_SIZE, p2Int % SNARK_FIELD_SIZE)

/-- Embeds crypto.SplitMetadataHash of src/pkg/crypto/crypto.go. -/
def SplitMetadataHash (metaRaw : List Nat) : Nat × Nat :=
  SplitHashToFieldElements (hexEncode (sha256 metaRaw))

/-- Embeds crypto.PoseidonHashString of src/pkg/crypto/crypto.go: despite the
name the operation is SHA-256 of the string interpreted big-endian, reduced
modulo the field prime.  The Go function always returns a nil error, so the
embedding is total. -/
def PoseidonHashString (s : List Nat) : Nat :=
  beNat (sha256 s) % SNARK_FIELD_SIZE

end Crypto

namespace Signals

/-- Embeds signals.hashToBigInts of src/pkg/signals/signals.go: the first 16
digest bytes become part1 and the last 16 become part2, both big-endian. -/
def hashToBigInts (data : List Nat) : Nat × Nat :=
  (beNat (data.take 16), beNat (data.drop 16))

/-- Embeds signals.VerificationResult of src/pkg/signals/signals.go. -/
structure VerificationResult where
  fqdnHash : Bool
  metadataPart1 : Bool
  metadataPart2 : Bool
  trustMethod : Bool
  allValid : Bool
deriving DecidableEq, Repr

/-- One iteration of the scan loop in signals.VerifyAgainstProof: a flag is
set whenever the signal value equals the corresponding expected value, at
any position. -/
def scanStep (tmBig metaP1 metaP2 fqdnBig : Nat) (res : VerificationResult)
    (sig : Nat) : VerificationResult :=
  { res with
    trustMethod := res.trustMethod || (sig == tmBig)
    metadataPart1 := res.metadataPart1 || (sig == metaP1)
    metadataPart2 := res.metadataPart2 || (sig == metaP2)
    fqdnHash := res.fqdnHash || (sig == fqdnBig) }

/-- Embeds signals.PTXSignals.VerifyAgainstProof of
src/pkg/signals/signals.go.  The public signal strings are parsed as decimal
integers, the expected values are recomputed from the PTX payload, and the
signals are scanned by value: a flag is set when the expected value occurs
anywhere in the list.  AllValid requires the trust method and the two
metadata parts, but not the FQDN hash. -/
def VerifyAgainstProof (domain metadataRaw : List Nat) (trustMethod : Nat)
    (publicSignals : List String) : VerificationResult :=
  let signals := publicSignals.map parseDec
  let metaHash := sha256 metadataRaw
  let mp := hashToBigInts metaHash
  let domainHashBytes := sha256 domain
  let fqdnBig := beNat domainHashBytes
  let res := signals.foldl (scanStep trustMethod mp.1 mp.2 fqdnBig)
    ⟨false, false, false, false, false⟩
  { res with allValid := res.trustMethod && res.metadataPart1 && res.metadataPart2 }

end Signals

namespace Utils

/-- Embeds utils.Sha256 of the utils package in src/unnamed/part_002: the
lowercase hex digest of a string. -/
def Sha256 (str : List Nat) : String :=
  hexEncode (sha256 str)

/-- The base-27 alphabet of utils.Base27. -/
def alphabet : List Char :=
  "abcdefghijklmnopqrstuvwxyz-".data

/-- Least-significant-first base-27 digits of a number, embedding the DivMod
loop of utils.Base27.  The fuel argument bounds the recursion; called with
fuel equal to the number itself, which always suffices since the digit count
of n is at most n. -/
def base27Digits : Nat → Nat → List Nat
  | 0, _ => []
  | _ + 1, 0 => []
  | fuel + 1, n + 1 => ((n + 1) % 27) :: base27Digits fuel ((n + 1) / 27)

/-- Embeds utils.Base27 of src/unnamed/part_002: the hex string is read as a
big integer and written least-significant digit first in base 27, then
reversed; zero encodes as the single character a. -/
def Base27 (hexStr : String) : String :=
  let n := parseHex hexStr
  if n = 0 then "a"
  else String.mk (((base27Digits n n).map fun d => alphabet.getD d 'a').reverse)

/-- Minimal big-endian byte representation of a natural number, embedding
big.Int.Bytes: the empty list for zero. -/
def natBEBytes (n : Nat) : List Nat :=
  ((base256Digits n n)).reverse
where
  /-- Least-significant-first base-256 digits, with the same fuel pattern as
  base27Digits. -/
  base256Digits : Nat → Nat → List Nat
    | 0, _ => []
    | _ + 1, 0 => []
    | fuel + 1, n + 1 => ((n + 1) % 256) :: base256Digits fuel ((n + 1) / 256)

/-- Embeds utils.DeriveHostnameFromCommitment of src/unnamed/part_002: parse
the decimal commitment, serialize it as 32 bytes little-endian, hash with
SHA-256, encode the digest in base 27 and wrap the result as
x...x.domain. -/
def DeriveHostnameFromCommitment (commitmentStr domain : String) :
    Except String String :=
  let n := parseDec commitmentStr
  if n = 0 ∧ commitmentStr ≠ "0" then
    Except.error ("failed to parse commitment: " ++ commitmentStr)
  else
    let beBytes := natBEBytes n
    let bytes := (List.range 32).map fun i =>
      if i < beBytes.length then beBytes.getD (beBytes.length - 1 - i) 0 else 0
    let hashHex := hexEncode (sha256 bytes)
    let encoded := Base27 hashHex
    Except.ok ("x" ++ encoded ++ "x." ++ domain)

end Utils

namespace Nonce

/-- The replay store state: one entry per key, carrying the sentinel value
and the TTL in seconds with which it was created.  Embeds the documented
contract of the external redis KV used by src/pkg/nonce/store.go. -/
abbrev StoreState := List (String × String × Int)

/-- Embeds redis SetNX by its documented contract: create the key only if
absent, reporting whether it was newly created. -/
def setNX (store : StoreState) (key value : String) (ttl : Int) :
    Bool × StoreState :=
  if (store.find? fun e => e.1 == key).isSome then (false, store)
  else (true, store ++ [(key, value, ttl)])

/-- Embeds nonce.NonceStore.CheckAndSetNonce of src/pkg/nonce/store.go.  The
wall clock read time.Now is passed explicitly; transport errors of the
in-memory store model never arise, so the error component is none. -/
def CheckAndSetNonce (store : StoreState) (nonce : String)
    (expirationTimestamp now : Int) : (Bool × Option String) × StoreState :=
  if expirationTimestamp < now then ((false, none), store)
  else
    let ttl := expirationTimestamp - now
    let r := setNX store nonce "1" ttl
    ((r.1, none), r.2)

end Nonce

namespace Verifier

/-- Go JSON values as produced by json.Unmarshal into interface maps.
Numbers are carried as integers: the metadata fields the verifier reads are
Unix timestamps, which float64 represents exactly in the relevant range. -/
inductive GoVal where
  | vnull : GoVal
  | vbool (b : Bool) : GoVal
  | vnum (x : Int) : GoVal
  | vstr (s : String) : GoVal
  | varr (xs : List GoVal) : GoVal

/-- A parsed signed_metadata JSON object: an association of field names to
values with at most one binding per key, looked up leftmost-first. -/
abbrev MetaObj := List (String × GoVal)

/-- Lookup of a key in a metadata object. -/
def metaGet (meta : MetaObj) (key : String) : Option GoVal :=
  (meta.find? fun e => e.1 == key).map (fun e => e.2)

/-- The observable outcome of the nonce-check block of PTXVerifier.Verify:
the error lines appended, the running success flag, whether Verify returned
early, and the trace of CheckAndSetNonce calls issued to the store (nonce
and expiration pairs). -/
structure NonceStepResult where
  errors : List String
  success : Bool
  earlyReturn : Bool
  storeOps : List (String × Int)
deriving DecidableEq, Repr

/-- Embeds the nonce-check block of PTXVerifier.Verify in
src/unnamed/part_004 (lines 186-209).  The block runs only when a redis URL
is configured and the parsed metadata has a string-valued nonce field; the
outcome of connecting to the store and of the CheckAndSetNonce call are
passed in as the environment of the block. -/
def nonceCheckStep (redisURL : String) (meta : MetaObj) (connectOk : Bool)
    (checkResult : Bool × Option String) (success0 : Bool)
    (errors0 : List String) : NonceStepResult :=
  if redisURL = "" then ⟨errors0, success0, false, []⟩
  else
    match metaGet meta "nonce" with
    | some (GoVal.vstr nonceVal) =>
      if connectOk = false then
        ⟨errors0 ++ ["Failed to connect to nonce store"], false, true, []⟩
      else
        let exp : Int :=
          match metaGet meta "expiration_timestamp" with
          | some (GoVal.vnum e) => e
          | _ => 300
        if checkResult.2.isSome ∨ checkResult.1 = false then
          ⟨errors0 ++ ["Nonce invalid or replayed"], false, false, [(nonceVal, exp)]⟩
        else
          ⟨errors0, success0, false, [(nonceVal, exp)]⟩
    | _ => ⟨errors0, success0, false, []⟩

/-- Embeds the circuit.DoHCircuit assignment built by
verifyNativeGnarkProof: the six public inputs in declaration order, followed
by the two private inputs. -/
structure DoHAssignment where
  nullifierHash : Nat
  commitment : Nat
  fqdn : Nat
  metadataHashP1 : Nat
  metadataHashP2 : Nat
  trustMethod : Nat
  nullifier : Nat
  secret : Nat
deriving DecidableEq, Repr

/-- Embeds fromStringV of src/unnamed/part_004: decimal string to big
integer. -/
def fromStringV (s : String) : Nat :=
  parseDec s

/-- Embeds the public-witness construction of
PTXVerifier.verifyNativeGnarkProof in src/unnamed/part_004 (lines 427-455):
after the length guard, positions 0 and 1 are taken from the proof envelope
signals and positions 2 through 5 are re-derived from the PTX payload
(domain bytes, raw metadata bytes, trust method); the private inputs are
zeroed. -/
def buildNativeAssignment (proofSignals : List String)
    (domain metaRaw : List Nat) (trustMethod : Nat) :
    Except String DoHAssignment :=
  if proofSignals.length < 2 then
    Except.error "Insufficient public signals in proof (need nullifierHash and commitment)"
  else
    let nullifierHash := proofSignals.getD 0 ""
    let commitment := proofSignals.getD 1 ""
    let fqdnHash := Crypto.PoseidonHashString domain
    let mp := Crypto.SplitMetadataHash metaRaw
    Except.ok
      { nullifierHash := fromStringV nullifierHash
        commitment := fromStringV commitment
        fqdn := fqdnHash
        metadataHashP1 := mp.1
        metadataHashP2 := mp.2
        trustMethod := trustMethod
        nullifier := 0
        secret := 0 }

/-- Modelled from the spec: the index-based semantic identity of the signal
derivation section - the derived values must equal positions 2 through 5 of
publicSignals, in the order fqdn, metadata_hash_p1, metadata_hash_p2,
trust_method, with p1 the low and p2 the high 128 bits of the metadata
digest.  The sources contain only the deprecated value-scan check, so this
definition follows the specification text. -/
def specSemanticAccepts (domain metadataRaw : List Nat) (trustMethod : Nat)
    (signals : List Nat) : Bool :=
  let fqdn := beNat (sha256 domain) % SNARK_FIELD_SIZE
  let digest := beNat (sha256 metadataRaw)
  let p1 := digest % (1 <<< 128)
  let p2 := digest / (1 <<< 128)
  (signals.getD 2 0 == fqdn) && (signals.getD 3 0 == p1) &&
    (signals.getD 4 0 == p2) && (signals.getD 5 0 == trustMethod)

end Verifier

namespace Prover

/-- The native proof envelope written by GenerateProofNative in
src/unnamed/part_006: the source tag, the six decimal public signals, and
the hex-encoded binary Groth16 proof. -/
structure NativeWrapper where
  source : String
  publicSignals : List String
  proofHex : String
deriving DecidableEq, Repr

/-- Embeds the tail of Prover.GenerateProofNative in src/unnamed/part_006
(lines 396-412): the wrapper has been built, the fresh proof is
self-verified, and a verification failure only prints a warning; the
marshalled wrapper is returned with a nil error in every case.  The outcome
of groth16.Verify is passed in as the environment. -/
def generateProofNativeFinish (selfVerifyErr : Option String)
    (wrapper : NativeWrapper) : List String × Except String NativeWrapper :=
  (if selfVerifyErr.isSome then
     ["WARNING: Generated proof failed self-verification!"]
   else [],
   Except.ok wrapper)

end Prover

/-! ## Poseidon

Two implementations appear in the sources: a scalar one in the crypto
package (src/unnamed/part_000) and an in-circuit one in the circuit
poseidon package (src/pkg/circuit/poseidon/poseidon.go), each reading its
round-constant and matrix tables from package-level variables. -/

/-- Modelled from the spec: the numeric Poseidon tables (poseidonC2 through
poseidonS5 in the crypto package, C_T2 through S_T5 in the circuit poseidon
package) are defined in a source file that is not part of the extract.  The
specification fixes only their shapes in PoseidonParams - for each t a
round-constant vector C, an MDS matrix M, a pre-sparse matrix P and a
flattened sparse-matrix vector S, all compile-time constants shared by the
scalar and circuit implementations - so the embedding carries them as a
parameter of this record type.  The pm field embeds the P matrix. -/
structure PoseidonTables where
  c : List Nat
  m : List (List Nat)
  pm : List (List Nat)
  s : List Nat

/-- Modelled from the spec: the tables for the three supported widths. -/
structure PoseidonConstants where
  t2 : PoseidonTables
  t4 : PoseidonTables
  t5 : PoseidonTables

/-- A degenerate table set used to instantiate universally quantified
theorems at concrete inputs. -/
def emptyTables : PoseidonConstants :=
  ⟨⟨[], [], [], []⟩, ⟨[], [], [], []⟩, ⟨[], [], [], []⟩⟩

namespace Crypto

/-- Embeds the package-level nRoundsP table of src/unnamed/part_000. -/
def nRoundsPTable : List Nat :=
  [56, 57, 56, 60, 60, 63, 64, 63, 60, 66, 60, 65, 70, 60, 64, 68]

/-- Embeds the sBox helper of crypto.PoseidonHash: x^5 computed as
((x*x)*(x*x))*x in field arithmetic. -/
def sBox (x : Nat) : Nat :=
  let x2 := fMul x x
  let x4 := fMul x2 x2
  fMul x4 x

/-- Embeds the ark helper of crypto.PoseidonHash: round constants starting
at offset r are added across the state. -/
def ark (t : Nat) (c : List Nat) (state : List Nat) (r : Nat) : List Nat :=
  (List.range t).map fun i => fAdd (state.getD i 0) (getFr (c.getD (i + r) 0))

/-- Embeds the mix helper of crypto.PoseidonHash: dense matrix
multiplication with column-major access, result i being the accumulated sum
over j of state j times matrix j i. -/
def mix (t : Nat) (matrix : List (List Nat)) (state : List Nat) : List Nat :=
  (List.range t).map fun i =>
    (List.range t).foldl
      (fun acc j =>
        fAdd acc (fMul (state.getD j 0) (getFr ((matrix.getD j []).getD i 0))))
      0

/-- Embeds the mixS helper of crypto.PoseidonHash: the sparse mix of a
partial round, with offset (t*2-1)*r into the flattened S table. -/
def mixS (t : Nat) (s : List Nat) (state : List Nat) (r : Nat) : List Nat :=
  let sOffset := (t * 2 - 1) * r
  let first :=
    (List.range t).foldl
      (fun acc i =>
        fAdd acc (fMul (state.getD i 0) (getFr (s.getD (sOffset + i) 0))))
      0
  first :: ((List.range (t - 1)).map fun i0 =>
    let i := i0 + 1
    fAdd (state.getD i 0) (fMul (state.getD 0 0) (getFr (s.getD (sOffset + t + i - 1) 0))))

/-- Application of the S-box across the whole state, embedding the inline
loops of crypto.PoseidonHash. -/
def sBoxAll (t : Nat) (state : List Nat) : List Nat :=
  (List.range t).map fun i => sBox (state.getD i 0)

/-- Embeds crypto.PoseidonHash of src/unnamed/part_000: table selection by
state width with failure outside widths 2, 4 and 5, then the Circom
PoseidonEx round sequence on the state [0, inputs...]. -/
def PoseidonHash (k : PoseidonConstants) (inputs : List Nat) :
    Except String Nat :=
  let nInputs := inputs.length
  let t := nInputs + 1
  if t = 2 then poseidonRounds k.t2 t inputs
  else if t = 4 then poseidonRounds k.t4 t inputs
  else if t = 5 then poseidonRounds k.t5 t inputs
  else
    Except.error ("unsupported number of inputs: " ++ Nat.repr nInputs ++
      " (t=" ++ Nat.repr t ++ ")")
where
  /-- The round sequence shared by the three supported widths. -/
  poseidonRounds (tbl : PoseidonTables) (t : Nat) (inputs : List Nat) :
      Except String Nat :=
    let c := tbl.c
    let m := tbl.m
    let pMat := tbl.pm
    let s := tbl.s
    let nRoundsF := 8
    let nRoundsP := nRoundsPTable.getD (t - 2) 0
    let state0 : List Nat := 0 :: inputs
    let state1 := ark t c state0 0
    let state2 := (List.range (nRoundsF / 2 - 1)).foldl
      (fun st r => mix t m (ark t c (sBoxAll t st) ((r + 1) * t))) state1
    let state3 := mix t pMat (ark t c (sBoxAll t state2) ((nRoundsF / 2) * t))
    let state4 := (List.range nRoundsP).foldl
      (fun st r =>
        let s0 := fAdd (sBox (st.getD 0 0))
          (getFr (c.getD ((nRoundsF / 2 + 1) * t + r) 0))
        mixS t s (st.set 0 s0) r)
      state3
    let state5 := (List.range (nRoundsF / 2 - 1)).foldl
      (fun st r =>
        mix t m (ark t c (sBoxAll t st) ((nRoundsF / 2 + 1) * t + nRoundsP + r * t)))
      state4
    let state6 := mix t m (sBoxAll t state5)
    Except.ok (state6.getD 0 0)

end Crypto

namespace CircuitPoseidon

/-- The constraint-builder interface the circuit Poseidon is written
against: gnark frontend.API restricted to the operations the hasher uses,
together with the implicit conversion of big-integer constants into circuit
values. -/
structure CircuitAPI (α : Type) where
  add : α → α → α
  mul : α → α → α
  ofConst : Nat → α

/-- Embeds poseidon.Parameters of src/pkg/circuit/poseidon/poseidon.go. -/
structure Parameters where
  t : Nat
  nRoundsF : Nat
  nRoundsP : Nat
  c : List Nat
  m : List (List Nat)
  pm : List (List Nat)
  s : List Nat

/-- Embeds the nRoundsP table local to poseidon.GetParams. -/
def nRoundsPTable : List Nat :=
  [56, 57, 56, 60, 60, 63, 64, 63, 60, 66, 60, 65, 70, 60, 64, 68]

/-- Embeds poseidon.GetParams of src/pkg/circuit/poseidon/poseidon.go. -/
def GetParams (k : PoseidonConstants) (t : Nat) : Except String Parameters :=
  if t = 2 then
    Except.ok ⟨t, 8, nRoundsPTable.getD (t - 2) 0, k.t2.c, k.t2.m, k.t2.pm, k.t2.s⟩
  else if t = 4 then
    Except.ok ⟨t, 8, nRoundsPTable.getD (t - 2) 0, k.t4.c, k.t4.m, k.t4.pm, k.t4.s⟩
  else if t = 5 then
    Except.ok ⟨t, 8, nRoundsPTable.getD (t - 2) 0, k.t5.c, k.t5.m, k.t5.pm, k.t5.s⟩
  else
    Except.error ("unsupported t value: " ++ Nat.repr t)

/-- Embeds Hasher.sBox: three multiplication gates computing x^5. -/
def hSBox {α : Type} (api : CircuitAPI α) (x : α) : α :=
  let x2 := api.mul x x
  let x4 := api.mul x2 x2
  api.mul x4 x

/-- Embeds Hasher.arkAtOffset: the hex round constants are parsed as raw big
integers and added through the api. -/
def arkAtOffset {α : Type} (api : CircuitAPI α) (ps : Parameters)
    (state : List α) (offset : Nat) : List α :=
  (List.range ps.t).map fun i =>
    api.add (state.getD i (api.ofConst 0)) (api.ofConst (ps.c.getD (offset + i) 0))

/-- Embeds Hasher.mix: dense matrix multiplication emitted as add and mul
gates, column-major, accumulating from the constant zero. -/
def hMix {α : Type} (api : CircuitAPI α) (ps : Parameters) (state : List α)
    (matrix : List (List Nat)) : List α :=
  (List.range ps.t).map fun i =>
    (List.range ps.t).foldl
      (fun acc j =>
        api.add acc (api.mul (state.getD j (api.ofConst 0))
          (api.ofConst ((matrix.getD j []).getD i 0))))
      (api.ofConst 0)

/-- Embeds Hasher.mixS: the sparse mix of a partial round. -/
def hMixS {α : Type} (api : CircuitAPI α) (ps : Parameters) (state : List α)
    (round : Nat) : List α :=
  let sOffset := (ps.t * 2 - 1) * round
  let first :=
    (List.range ps.t).foldl
      (fun acc i =>
        api.add acc (api.mul (state.getD i (api.ofConst 0))
          (api.ofConst (ps.s.getD (sOffset + i) 0))))
      (api.ofConst 0)
  first :: ((List.range (ps.t - 1)).map fun i0 =>
    let i := i0 + 1
    api.add (state.getD i (api.ofConst 0))
      (api.mul (state.getD 0 (api.ofConst 0))
        (api.ofConst (ps.s.getD (sOffset + ps.t + i - 1) 0))))

/-- Application of the S-box gates across the whole state, embedding the
inline loops of Hasher.Hash. -/
def hSBoxAll {α : Type} (api : CircuitAPI α) (ps : Parameters)
    (state : List α) : List α :=
  (List.range ps.t).map fun i => hSBox api (state.getD i (api.ofConst 0))

/-- Embeds Hasher.Hash of src/pkg/circuit/poseidon/poseidon.go: the arity
guard, then the same Circom PoseidonEx round sequence emitted as gates. -/
def hashWithParams {α : Type} (api : CircuitAPI α) (ps : Parameters)
    (inputs : List α) : Except String α :=
  if inputs.length ≠ ps.t - 1 then
    Except.error ("expected " ++ Nat.repr (ps.t - 1) ++ " inputs, got " ++
      Nat.repr inputs.length)
  else
    let t := ps.t
    let rf := ps.nRoundsF
    let rp := ps.nRoundsP
    let state0 : List α := api.ofConst 0 :: inputs
    let state1 := arkAtOffset api ps state0 0
    let state2 := (List.range (rf / 2 - 1)).foldl
      (fun st r => hMix api ps (arkAtOffset api ps (hSBoxAll api ps st) ((r + 1) * t)) ps.m)
      state1
    let state3 := hMix api ps (arkAtOffset api ps (hSBoxAll api ps state2) ((rf / 2) * t)) ps.pm
    let state4 := (List.range rp).foldl
      (fun st r =>
        let s0 := api.add (hSBox api (st.getD 0 (api.ofConst 0)))
          (api.ofConst (ps.c.getD ((rf / 2 + 1) * t + r) 0))
        hMixS api ps (st.set 0 s0) r)
      state3
    let state5 := (List.range (rf / 2 - 1)).foldl
      (fun st r =>
        hMix api ps (arkAtOffset api ps (hSBoxAll api ps st) ((rf / 2 + 1) * t + rp + r * t)) ps.m)
      state4
    let state6 := hMix api ps (hSBoxAll api ps state5) ps.m
    Except.ok (state6.getD 0 (api.ofConst 0))

/-- Embeds the composition NewHasher followed by Hasher.Hash: parameter
lookup for t equal to the input count plus one, then the gate emission. -/
def Hash {α : Type} (api : CircuitAPI α) (k : PoseidonConstants)
    (inputs : List α) : Except String α :=
  match GetParams k (inputs.length + 1) with
  | Except.error e => Except.error e
  | Except.ok ps => hashWithParams api ps inputs

/-- The field-evaluation semantics of the constraint builder: add and mul
gates compute in the BN254 scalar field, and constants enter the circuit
reduced into the field. -/
def frAPI : CircuitAPI Nat :=
  ⟨fAdd, fMul, getFr⟩

/-- The circuit Poseidon evaluated on concrete field elements: the gate
stream of Hasher.Hash interpreted by frAPI. -/
def hashEval (k : PoseidonConstants) (inputs : List Nat) : Except String Nat :=
  Hash frAPI k inputs

end CircuitPoseidon

namespace Spec

/-- Modelled from the spec: the partial-round counts of PoseidonParams,
indexed by t minus 2. -/
def rpTable : List Nat :=
  [56, 57, 56, 60, 60, 63, 64, 63, 60, 66, 60, 65, 70, 60, 64, 68]

/-- Modelled from the spec: the S-box, state values raised to the fifth
power in F. -/
def pow5 (x : Nat) : Nat := x ^ 5 % SNARK_FIELD_SIZE

/-- Modelled from the spec: adding a slice of round constants across the
state. -/
def arkSpec (t : Nat) (c : List Nat) (state : List Nat) (off : Nat) : List Nat :=
  (List.range t).map fun i =>
    (state.getD i 0 + getFr (c.getD (off + i) 0)) % SNARK_FIELD_SIZE

/-- Modelled from the spec: column-major matrix multiplication, result i
being the sum over j of state j times M j i, reduced in F. -/
def mixSpec (t : Nat) (matrix : List (List Nat)) (state : List Nat) : List Nat :=
  (List.range t).map fun i =>
    (((List.range t).map fun j =>
        state.getD j 0 * getFr ((matrix.getD j []).getD i 0)).sum) % SNARK_FIELD_SIZE

/-- Modelled from the spec: the SparseMix step of a partial round, with
offset o equal to (2t-1)r: new 0 is the dot product of the state with
S[o..o+t], and new i is state i plus state 0 times S[o+t+i-1]. -/
def sparseMixSpec (t : Nat) (s : List Nat) (state : List Nat) (r : Nat) : List Nat :=
  let o := (2 * t - 1) * r
  ((((List.range t).map fun i => state.getD i 0 * getFr (s.getD (o + i) 0)).sum) % SNARK_FIELD_SIZE)
    :: ((List.range (t - 1)).map fun i0 =>
      let i := i0 + 1
      (state.getD i 0 + state.getD 0 0 * getFr (s.getD (o + t + i - 1) 0)) % SNARK_FIELD_SIZE)

/-- Modelled from the spec: the full S-box layer. -/
def sBoxLayer (t : Nat) (state : List Nat) : List Nat :=
  (List.range t).map fun i => pow5 (state.getD i 0)

/-- Modelled from the spec: the exact round sequence of the scalar Poseidon
section - initial ark, R_F/2 - 1 full rounds with M, one middle full round
with the pre-sparse matrix P, R_P partial rounds of S-box and constant on
state 0 followed by SparseMix, R_F/2 - 1 more full rounds with M, a final
S-box layer and mix with M, returning state 0. -/
def poseidonRun (tbl : PoseidonTables) (rp : Nat) (inputs : List Nat) : Nat :=
  let t := inputs.length + 1
  let rf := 8
  let st0 : List Nat := 0 :: inputs
  let st1 := arkSpec t tbl.c st0 0
  let st2 := (List.range (rf / 2 - 1)).foldl
    (fun st r => mixSpec t tbl.m (arkSpec t tbl.c (sBoxLayer t st) ((r + 1) * t))) st1
  let st3 := mixSpec t tbl.pm (arkSpec t tbl.c (sBoxLayer t st2) ((rf / 2) * t))
  let st4 := (List.range rp).foldl
    (fun st r =>
      let s0 := (pow5 (st.getD 0 0) + getFr (tbl.c.getD ((rf / 2 + 1) * t + r) 0)) %
        SNARK_FIELD_SIZE
      sparseMixSpec t tbl.s (st.set 0 s0) r)
    st3
  let st5 := (List.range (rf / 2 - 1)).foldl
    (fun st r =>
      mixSpec t tbl.m (arkSpec t tbl.c (sBoxLayer t st) ((rf / 2 + 1) * t + rp + r * t)))
    st4
  let st6 := mixSpec t tbl.m (sBoxLayer t st5)
  st6.getD 0 0

/-- Modelled from the spec: table and round-count selection of
PoseidonParams for the supported widths. -/
def paramsFor (k : PoseidonConstants) (t : Nat) : Option (PoseidonTables × Nat) :=
  if t = 2 then some (k.t2, rpTable.getD (t - 2) 0)
  else if t = 4 then some (k.t4, rpTable.getD (t - 2) 0)
  else if t = 5 then some (k.t5, rpTable.getD (t - 2) 0)
  else none

/-- Modelled from the spec: the Poseidon contract - parameter selection by
state width, undefined outside the supported widths, and the round sequence
of poseidonRun on the selected tables. -/
def poseidonHash (k : PoseidonConstants) (inputs : List Nat) : Option Nat :=
  match paramsFor k (inputs.length + 1) with
  | none => none
  | some pr => some (poseidonRun pr.1 pr.2 inputs)

end Spec

/-- The ASCII bytes of example.com, a concrete anchor domain. -/
def exampleDomainBytes : List Nat :=
  [101, 120, 97, 109, 112, 108, 101, 46, 99, 111, 109]

/-- The two bytes of the empty JSON object used as concrete signed
metadata. -/
def emptyObjectBytes : List Nat := [0x7b, 0x7d]

/-! ## Arithmetic facts about the byte and hex encodings -/

theorem foldl_base256 (l : List Nat) :
    ∀ a, l.foldl (fun acc b => acc * 256 + b) a =
      a * 256 ^ l.length + l.foldl (fun acc b => acc * 256 + b) 0 := by
  induction l with
  | nil => intro a; simp
  | cons b l ih =>
    intro a
    rw [List.foldl_cons, List.foldl_cons, ih (a * 256 + b), ih (0 * 256 + b),
      List.length_cons, pow_succ]
    ring

theorem beNat_cons (b : Nat) (l : List Nat) :
    beNat (b :: l) = b * 256 ^ l.length + beNat l := by
  show List.foldl _ _ _ = _
  rw [List.foldl_cons, foldl_base256 l (0 * 256 + b)]
  simp [beNat]

theorem beNat_lt (l : List Nat) (h : ∀ b ∈ l, b < 256) :
    beNat l < 256 ^ l.length := by
  induction l with
  | nil => simp [beNat]
  | cons b l ih =>
    have hb : b < 256 := h b (List.mem_cons_self _ _)
    have hl := ih fun x hx => h x (List.mem_cons_of_mem _ hx)
    rw [beNat_cons]
    calc b * 256 ^ l.length + beNat l
        < b * 256 ^ l.length + 256 ^ l.length := by omega
      _ = (b + 1) * 256 ^ l.length := by ring
      _ ≤ 256 * 256 ^ l.length := by
          exact Nat.mul_le_mul_right _ (by omega)
      _ = 256 ^ (b :: l).length := by
          simp [List.length_cons, pow_succ]; ring

theorem beNat_append (l1 l2 : List Nat) :
    beNat (l1 ++ l2) = beNat l1 * 256 ^ l2.length + beNat l2 := by
  induction l1 with
  | nil => simp [beNat]
  | cons b l ih =>
    rw [List.cons_append, beNat_cons, ih, beNat_cons, List.length_append]
    ring

theorem hexCharVal_hexDigitChar {d : Nat} (h : d < 16) :
    hexCharVal (hexDigitChar d) = d := by
  interval_cases d <;> decide

theorem parseHex_hexEncode (l : List Nat) (h : ∀ b ∈ l, b < 256) :
    parseHex (hexEncode l) = beNat l := by
  suffices haux : ∀ (a : Nat),
      (l.flatMap fun b => [hexDigitChar (b / 16), hexDigitChar (b % 16)]).foldl
        (fun acc c => acc * 16 + hexCharVal c) a =
      l.foldl (fun acc b => acc * 256 + b) a by
    simpa [parseHex, hexEncode, beNat] using haux 0
  induction l with
  | nil => intro a; simp
  | cons b l ih =>
    intro a
    have hb : b < 256 := h b (List.mem_cons_self _ _)
    have ihl := ih fun x hx => h x (List.mem_cons_of_mem _ hx)
    have hdiv : b / 16 < 16 := by omega
    have hmod : b % 16 < 16 := by omega
    simp only [List.flatMap_cons, List.foldl_append, List.foldl_cons,
      List.foldl_nil, List.cons_append, List.nil_append]
    rw [hexCharVal_hexDigitChar hdiv, hexCharVal_hexDigitChar hmod, ihl]
    have : (a * 16 + b / 16) * 16 + b % 16 = a * 256 + b := by omega
    rw [this]

theorem sha256_length (msg : List Nat) : (sha256 msg).length = 32 := by
  have hfold : ∀ (bs : List (List Nat)) (hs : List Nat), hs.length = 8 →
      (bs.foldl Sha256.compress hs).length = 8 := by
    intro bs
    induction bs with
    | nil => intro hs h; simpa using h
    | cons b bs ih =>
      intro hs _
      exact ih _ (by simp [Sha256.compress])
  have h8 : ((Sha256.chunks (Sha256.pad msg).length (Sha256.pad msg)).foldl
      Sha256.compress Sha256.iv).length = 8 := hfold _ _ (by decide)
  unfold sha256
  rw [List.length_flatMap]
  have hsum : ∀ (l : List Nat), (l.map (List.length ∘ Sha256.u32be)).sum =
      4 * l.length := by
    intro l
    induction l with
    | nil => simp
    | cons x l ih =>
      simp only [List.map_cons, List.sum_cons, ih, List.length_cons,
        Function.comp_apply, Sha256.u32be, List.length_cons, List.length_nil]
      ring
  rw [hsum, h8]

theorem sha256_bytes_lt (msg : List Nat) : ∀ b ∈ sha256 msg, b < 256 := by
  intro b hb
  unfold sha256 at hb
  rw [List.mem_flatMap] at hb
  obtain ⟨x, _, hx⟩ := hb
  simp only [Sha256.u32be, List.mem_cons, List.not_mem_nil, or_false] at hx
  rcases hx with h | h | h | h <;> omega

theorem beNat_sha256_lt (msg : List Nat) : beNat (sha256 msg) < 2 ^ 256 := by
  have h := beNat_lt (sha256 msg) (sha256_bytes_lt msg)
  rw [sha256_length] at h
  calc beNat (sha256 msg) < 256 ^ 32 := h
    _ = 2 ^ 256 := by norm_num

theorem snark_prime_large : 2 ^ 128 < SNARK_FIELD_SIZE := by decide

/-- The split of a 32-byte big-endian digest at byte 16: the first half is
the high and the second half the low 128 bits. -/
theorem beNat_take_drop_16 (l : List Nat) (hlen : l.length = 32)
    (hbytes : ∀ b ∈ l, b < 256) :
    beNat (l.take 16) = beNat l / 2 ^ 128 ∧
    beNat (l.drop 16) = beNat l % 2 ^ 128 := by
  have hsplit : l = l.take 16 ++ l.drop 16 := (List.take_append_drop 16 l).symm
  have hld : (l.drop 16).length = 16 := by
    rw [List.length_drop, hlen]
  have hdlt : beNat (l.drop 16) < 2 ^ 128 := by
    have := beNat_lt (l.drop 16) fun b hb => hbytes b (List.mem_of_mem_drop hb)
    rw [hld] at this
    calc beNat (l.drop 16) < 256 ^ 16 := this
      _ = 2 ^ 128 := by norm_num
  have hval : beNat l = 2 ^ 128 * beNat (l.take 16) + beNat (l.drop 16) := by
    conv_lhs => rw [hsplit]
    rw [beNat_append, hld]
    norm_num
    ring
  constructor
  · rw [hval, Nat.mul_add_div (Nat.two_pow_pos 128), Nat.div_eq_of_lt hdlt,
      Nat.add_zero]
  · rw [hval, Nat.mul_add_mod, Nat.mod_eq_of_lt hdlt]

/-- Evaluation of the prover-side split on a digest: the low 128 bits become
the first and the high 128 bits the second component, and the field
reduction is the identity because both halves are below the prime. -/
theorem splitHash_hexEncode_sha256 (msg : List Nat) :
    Crypto.SplitMetadataHash msg =
      (beNat (sha256 msg) % 2 ^ 128, beNat (sha256 msg) / 2 ^ 128) := by
  unfold Crypto.SplitMetadataHash Crypto.SplitHashToFieldElements
  rw [parseHex_hexEncode _ (sha256_bytes_lt msg)]
  have hmask : (1 <<< 128 : Nat) - 1 = 2 ^ 128 - 1 := by decide
  have hlow : beNat (sha256 msg) &&& (1 <<< 128) - 1 =
      beNat (sha256 msg) % 2 ^ 128 := by
    rw [hmask]
    exact Nat.and_pow_two_sub_one_eq_mod _ _
  have hdivlt : beNat (sha256 msg) / 2 ^ 128 < 2 ^ 128 := by
    have h := beNat_sha256_lt msg
    rw [show (2 : Nat) ^ 256 = 2 ^ 128 * 2 ^ 128 by norm_num] at h
    exact Nat.div_lt_of_lt_mul h
  have hhigh : beNat (sha256 msg) >>> 128 &&& (1 <<< 128) - 1 =
      beNat (sha256 msg) / 2 ^ 128 := by
    rw [hmask, Nat.and_pow_two_sub_one_eq_mod, Nat.shiftRight_eq_div_pow,
      Nat.mod_eq_of_lt hdivlt]
  simp only [hlow, hhigh]
  have h1 : beNat (sha256 msg) % 2 ^ 128 % SNARK_FIELD_SIZE =
      beNat (sha256 msg) % 2 ^ 128 :=
    Nat.mod_eq_of_lt (lt_trans (Nat.mod_lt _ (by positivity)) snark_prime_large)
  have h2 : beNat (sha256 msg) / 2 ^ 128 % SNARK_FIELD_SIZE =
      beNat (sha256 msg) / 2 ^ 128 :=
    Nat.mod_eq_of_lt (lt_trans hdivlt snark_prime_large)
  rw [h1, h2]

/-- Evaluation of the verifier-side split on a digest: the first component
is the high and the second the low 128 bits. -/
theorem hashToBigInts_sha256 (msg : List Nat) :
    Signals.hashToBigInts (sha256 msg) =
      (beNat (sha256 msg) / 2 ^ 128, beNat (sha256 msg) % 2 ^ 128) := by
  have h := beNat_take_drop_16 (sha256 msg) (sha256_length msg)
    (sha256_bytes_lt msg)
  unfold Signals.hashToBigInts
  rw [h.1, h.2]

/-! ## Poseidon round equalities -/

theorem fAdd_mod_right (a b : Nat) :
    fAdd a (b % SNARK_FIELD_SIZE) = (a + b) % SNARK_FIELD_SIZE := by
  unfold fAdd
  conv_lhs => rw [Nat.add_mod]
  conv_rhs => rw [Nat.add_mod]
  rw [Nat.mod_mod]

theorem sBox_eq_pow5 (x : Nat) : Crypto.sBox x = Spec.pow5 x := by
  show fMul (fMul (fMul x x) (fMul x x)) x = x ^ 5 % SNARK_FIELD_SIZE
  unfold fMul
  conv_rhs => rw [show x ^ 5 = x * x * (x * x) * x by ring]
  simp [Nat.mul_mod]

theorem foldl_fAdd_mod (g : Nat → Nat) (l : List Nat) :
    ∀ a : Nat,
      l.foldl (fun acc j => fAdd acc (g j % SNARK_FIELD_SIZE))
        (a % SNARK_FIELD_SIZE) =
      (a + (l.map g).sum) % SNARK_FIELD_SIZE := by
  induction l with
  | nil => intro a; simp
  | cons j l ih =>
    intro a
    rw [List.foldl_cons]
    have hstep : fAdd (a % SNARK_FIELD_SIZE) (g j % SNARK_FIELD_SIZE) =
        (a + g j) % SNARK_FIELD_SIZE := by
      unfold fAdd
      rw [← Nat.add_mod]
    rw [hstep, ih (a + g j), List.map_cons, List.sum_cons, Nat.add_assoc]

theorem ark_eq_spec (t : Nat) (c : List Nat) (state : List Nat) (off : Nat) :
    Crypto.ark t c state off = Spec.arkSpec t c state off := by
  unfold Crypto.ark Spec.arkSpec
  have h : (fun i => fAdd (state.getD i 0) (getFr (c.getD (i + off) 0)))
      = fun i => (state.getD i 0 + getFr (c.getD (off + i) 0)) %
          SNARK_FIELD_SIZE := by
    funext i
    rw [Nat.add_comm i off]
    rfl
  rw [h]

theorem sBoxAll_eq_spec (t : Nat) (state : List Nat) :
    Crypto.sBoxAll t state = Spec.sBoxLayer t state := by
  unfold Crypto.sBoxAll Spec.sBoxLayer
  have h : (fun i => Crypto.sBox (state.getD i 0))
      = fun i => Spec.pow5 (state.getD i 0) := by
    funext i
    exact sBox_eq_pow5 _
  rw [h]

theorem mix_eq_spec (t : Nat) (matrix : List (List Nat)) (state : List Nat) :
    Crypto.mix t matrix state = Spec.mixSpec t matrix state := by
  unfold Crypto.mix Spec.mixSpec
  have h : ∀ i : Nat,
      (List.range t).foldl
        (fun acc j =>
          fAdd acc (fMul (state.getD j 0) (getFr ((matrix.getD j []).getD i 0))))
        0 =
      (((List.range t).map fun j =>
        state.getD j 0 * getFr ((matrix.getD j []).getD i 0)).sum) %
        SNARK_FIELD_SIZE := by
    intro i
    have h2 := foldl_fAdd_mod
      (fun j => state.getD j 0 * getFr ((matrix.getD j []).getD i 0))
      (List.range t) 0
    rw [Nat.zero_add] at h2
    exact h2
  exact congrArg (fun fn => List.map fn (List.range t)) (funext h)

theorem mixS_eq_spec (t : Nat) (s : List Nat) (state : List Nat) (r : Nat) :
    Crypto.mixS t s state r = Spec.sparseMixSpec t s state r := by
  unfold Crypto.mixS Spec.sparseMixSpec
  have ho : (2 * t - 1) * r = (t * 2 - 1) * r := by rw [Nat.mul_comm 2 t]
  rw [ho]
  dsimp only
  congr 1
  · have h2 := foldl_fAdd_mod
      (fun i => state.getD i 0 * getFr (s.getD ((t * 2 - 1) * r + i) 0))
      (List.range t) 0
    rw [Nat.zero_add] at h2
    exact h2
  · have h : (fun i0 : Nat =>
        fAdd (state.getD (i0 + 1) 0)
          (fMul (state.getD 0 0) (getFr (s.getD ((t * 2 - 1) * r + t + (i0 + 1) - 1) 0))))
        = fun i0 : Nat =>
          (state.getD (i0 + 1) 0 +
            state.getD 0 0 * getFr (s.getD ((t * 2 - 1) * r + t + (i0 + 1) - 1) 0)) %
            SNARK_FIELD_SIZE := by
      funext i0
      exact fAdd_mod_right _ _
    exact congrArg (fun fn => List.map fn (List.range (t - 1))) (funext fun i0 =>
      congrFun h i0)

/-- The round sequence of the scalar implementation coincides with the round
sequence written out in the specification, for any table set and any input
width. -/
theorem poseidonRounds_eq_spec (tbl : PoseidonTables) (inputs : List Nat) :
    Crypto.PoseidonHash.poseidonRounds tbl (inputs.length + 1) inputs =
      Except.ok (Spec.poseidonRun tbl
        (Crypto.nRoundsPTable.getD (inputs.length + 1 - 2) 0) inputs) := by
  unfold Crypto.PoseidonHash.poseidonRounds Spec.poseidonRun
  dsimp only
  simp only [ark_eq_spec, mix_eq_spec, mixS_eq_spec, sBoxAll_eq_spec,
    sBox_eq_pow5]
  rfl

example : sha256 [] =
    [0xe3, 0xb0, 0xc4, 0x42, 0x98, 0xfc, 0x1c, 0x14, 0x9a, 0xfb, 0xf4, 0xc8,
     0x99, 0x6f, 0xb9, 0x24, 0x27, 0xae, 0x41, 0xe4, 0x64, 0x9b, 0x93, 0x4c,
     0xa4, 0x95, 0x99, 0x1b, 0x78, 0x52, 0xb8, 0x55] := by decide

example : sha256 [0x61, 0x62, 0x63] =
    [0xba, 0x78, 0x16, 0xbf, 0x8f, 0x01, 0xcf, 0xea, 0x41, 0x41, 0x40, 0xde,
     0x5d, 0xae, 0x22, 0x23, 0xb0, 0x03, 0x61, 0xa3, 0x96, 0x17, 0x7a, 0x9c,
     0xb4, 0x10, 0xff, 0x61, 0xf2, 0x00, 0x15, 0xad] := by decide

/-! ## Claim theorems -/

/-- C4: for every table set and every input list, the scalar Poseidon hash
agrees with the round sequence of the specification - initial ark, R_F/2 - 1
full rounds with M, the middle full round mixed with the pre-sparse matrix,
R_P partial rounds with the sparse mix, R_F/2 - 1 more full rounds, the
final S-box layer and mix with M, returning state 0, with all dense matrix
products taken column-major - and both sides fail on exactly the same
unsupported widths. -/
theorem c4_scalar_poseidon_follows_spec_rounds (k : PoseidonConstants)
    (inputs : List Nat) :
    (Crypto.PoseidonHash k inputs).toOption = Spec.poseidonHash k inputs := by
  unfold Crypto.PoseidonHash Spec.poseidonHash Spec.paramsFor
  dsimp only
  split_ifs with h2 h4 h5
  · rw [poseidonRounds_eq_spec]; rfl
  · rw [poseidonRounds_eq_spec]; rfl
  · rw [poseidonRounds_eq_spec]; rfl
  · rfl

theorem hSBox_frAPI (x : Nat) :
    CircuitPoseidon.hSBox CircuitPoseidon.frAPI x = Crypto.sBox x := rfl

theorem arkAtOffset_frAPI (ps : CircuitPoseidon.Parameters) (state : List Nat)
    (off : Nat) :
    CircuitPoseidon.arkAtOffset CircuitPoseidon.frAPI ps state off =
      Crypto.ark ps.t ps.c state off := by
  unfold CircuitPoseidon.arkAtOffset Crypto.ark
  have h : ∀ i : Nat,
      CircuitPoseidon.frAPI.add
        (state.getD i (CircuitPoseidon.frAPI.ofConst 0))
        (CircuitPoseidon.frAPI.ofConst (ps.c.getD (off + i) 0)) =
      fAdd (state.getD i 0) (getFr (ps.c.getD (i + off) 0)) := by
    intro i
    rw [Nat.add_comm off i]
    rfl
  exact congrArg (fun fn => List.map fn (List.range ps.t)) (funext h)

theorem hMix_frAPI (ps : CircuitPoseidon.Parameters) (state : List Nat)
    (matrix : List (List Nat)) :
    CircuitPoseidon.hMix CircuitPoseidon.frAPI ps state matrix =
      Crypto.mix ps.t matrix state := rfl

theorem hMixS_frAPI (ps : CircuitPoseidon.Parameters) (state : List Nat)
    (round : Nat) :
    CircuitPoseidon.hMixS CircuitPoseidon.frAPI ps state round =
      Crypto.mixS ps.t ps.s state round := rfl

theorem hSBoxAll_frAPI (ps : CircuitPoseidon.Parameters) (state : List Nat) :
    CircuitPoseidon.hSBoxAll CircuitPoseidon.frAPI ps state =
      Crypto.sBoxAll ps.t state := rfl

/-- The field evaluation of the circuit round sequence coincides with the
scalar round sequence, for any table set and width, as long as the partial
round count is the one the scalar implementation derives from the width. -/
theorem hashWithParams_eval (tbl : PoseidonTables) (t rp : Nat)
    (inputs : List Nat) (hlen : inputs.length = t - 1)
    (hrp : rp = Crypto.nRoundsPTable.getD (t - 2) 0) :
    CircuitPoseidon.hashWithParams CircuitPoseidon.frAPI
        ⟨t, 8, rp, tbl.c, tbl.m, tbl.pm, tbl.s⟩ inputs =
      Crypto.PoseidonHash.poseidonRounds tbl t inputs := by
  subst hrp
  unfold CircuitPoseidon.hashWithParams Crypto.PoseidonHash.poseidonRounds
  rw [if_neg (by simp only []; omega)]
  dsimp only
  simp only [hSBox_frAPI, arkAtOffset_frAPI, hMix_frAPI, hMixS_frAPI,
    hSBoxAll_frAPI]
  rfl

/-- C3: for every table set and every input list of a supported arity, the
in-circuit Poseidon with its add and mul gates evaluated in the scalar field
computes exactly the value of the off-circuit scalar Poseidon: the two
embeddings of the permutation agree extensionally. -/
theorem c3_scalar_circuit_poseidon_equal (k : PoseidonConstants)
    (inputs : List Nat)
    (h : inputs.length = 1 ∨ inputs.length = 3 ∨ inputs.length = 4) :
    CircuitPoseidon.hashEval k inputs = Crypto.PoseidonHash k inputs := by
  unfold CircuitPoseidon.hashEval CircuitPoseidon.Hash CircuitPoseidon.GetParams
    Crypto.PoseidonHash
  dsimp only
  split_ifs with h2 h4 h5
  · exact hashWithParams_eval k.t2 (inputs.length + 1) _ inputs (by omega) rfl
  · exact hashWithParams_eval k.t4 (inputs.length + 1) _ inputs (by omega) rfl
  · exact hashWithParams_eval k.t5 (inputs.length + 1) _ inputs (by omega) rfl
  · omega

/-- Witness for C3 at one input of supported arity. -/
theorem c3_witness :
    ([5] : List Nat).length = 1 ∧
    CircuitPoseidon.hashEval emptyTables [5] =
      Crypto.PoseidonHash emptyTables [5] :=
  ⟨by decide,
   c3_scalar_circuit_poseidon_equal emptyTables [5] (Or.inl (by decide))⟩

/-- C6 counterexample: an input list of arity 2 (t = 3) is rejected with the
unsupported-width error, although the claim includes n = 2 among the
succeeding arities. -/
theorem c6_arity_two_rejected :
    Crypto.PoseidonHash emptyTables [1, 2] =
      Except.error "unsupported number of inputs: 2 (t=3)" := by
  rfl

/-- C6 as amended: the scalar Poseidon hash succeeds exactly for arities 1,
3 and 4 (t in 2, 4, 5), fails with the unsupported-width error exactly when
t is outside 2, 4 and 5, and has no other failure mode. -/
theorem c6_amended_poseidon_width_contract (k : PoseidonConstants)
    (inputs : List Nat) :
    ((inputs.length = 1 ∨ inputs.length = 3 ∨ inputs.length = 4) →
      (Crypto.PoseidonHash k inputs).isOk = true) ∧
    (¬ (inputs.length = 1 ∨ inputs.length = 3 ∨ inputs.length = 4) →
      Crypto.PoseidonHash k inputs =
        Except.error ("unsupported number of inputs: " ++
          Nat.repr inputs.length ++ " (t=" ++
          Nat.repr (inputs.length + 1) ++ ")")) := by
  constructor
  · intro h
    unfold Crypto.PoseidonHash
    dsimp only
    split_ifs with h2 h4 h5
    · unfold Crypto.PoseidonHash.poseidonRounds
      rfl
    · unfold Crypto.PoseidonHash.poseidonRounds
      rfl
    · unfold Crypto.PoseidonHash.poseidonRounds
      rfl
    · omega
  · intro h
    unfold Crypto.PoseidonHash
    dsimp only
    rw [if_neg (by omega), if_neg (by omega), if_neg (by omega)]

/-- Witness for C6 as amended, at a succeeding and at a failing arity. -/
theorem c6_witness :
    (((([6] : List Nat).length = 1 ∨ ([6] : List Nat).length = 3 ∨
        ([6] : List Nat).length = 4)) ∧
      (Crypto.PoseidonHash emptyTables [6]).isOk = true) ∧
    (¬ ((([] : List Nat).length = 1 ∨ ([] : List Nat).length = 3 ∨
        ([] : List Nat).length = 4)) ∧
      Crypto.PoseidonHash emptyTables [] =
        Except.error ("unsupported number of inputs: " ++
          Nat.repr ([] : List Nat).length ++ " (t=" ++
          Nat.repr (([] : List Nat).length + 1) ++ ")")) :=
  ⟨⟨by decide,
    (c6_amended_poseidon_width_contract emptyTables [6]).1 (by decide)⟩,
   ⟨by decide,
    (c6_amended_poseidon_width_contract emptyTables []).2 (by decide)⟩⟩

/-- C2: on the native path, after the length guard, the public witness is
built from the envelope only at positions 0 and 1 (nullifier hash and
commitment, parsed from the proof signals), while positions 2 through 5 are
re-derived from the PTX payload: the SHA-256 of the domain reduced modulo
the field prime, the low and high 128-bit halves of the SHA-256 of
signed_metadata, and the trust-method integer; the envelope entries beyond
the first two never enter the witness. -/
theorem c2_native_witness_rederives_positions_2_to_5
    (proofSignals : List String) (domain metaRaw : List Nat) (tm : Nat)
    (h : 2 ≤ proofSignals.length) :
    Verifier.buildNativeAssignment proofSignals domain metaRaw tm =
      Except.ok
        { nullifierHash := parseDec (proofSignals.getD 0 "")
          commitment := parseDec (proofSignals.getD 1 "")
          fqdn := beNat (sha256 domain) % SNARK_FIELD_SIZE
          metadataHashP1 := beNat (sha256 metaRaw) % 2 ^ 128
          metadataHashP2 := beNat (sha256 metaRaw) / 2 ^ 128
          trustMethod := tm
          nullifier := 0
          secret := 0 } := by
  unfold Verifier.buildNativeAssignment
  rw [if_neg (by omega)]
  rw [splitHash_hexEncode_sha256]
  rfl

/-- Witness for C2 at a concrete envelope and payload. -/
theorem c2_witness :
    2 ≤ (["5", "7"] : List String).length ∧
    Verifier.buildNativeAssignment ["5", "7"] [97] [] 1 =
      Except.ok
        { nullifierHash := parseDec ((["5", "7"] : List String).getD 0 "")
          commitment := parseDec ((["5", "7"] : List String).getD 1 "")
          fqdn := beNat (sha256 [97]) % SNARK_FIELD_SIZE
          metadataHashP1 := beNat (sha256 []) % 2 ^ 128
          metadataHashP2 := beNat (sha256 []) / 2 ^ 128
          trustMethod := 1
          nullifier := 0
          secret := 0 } :=
  ⟨by decide,
   c2_native_witness_rederives_positions_2_to_5 ["5", "7"] [97] [] 1 (by decide)⟩

/-- C1: the semantic verification the sources actually run scans the public
signals by value.  With the expected trust method and both metadata halves
placed at positions 0 to 2 - so positions 2 to 5 do not carry the derived
triple - VerifyAgainstProof still reports AllValid true, while the
index-based identity of the specification rejects the very same signal list;
the FQDN value, moreover, does not even enter AllValid. -/
theorem c1_value_scan_accepts_misplaced_signals :
    (Signals.VerifyAgainstProof exampleDomainBytes emptyObjectBytes 1
        ["90488421641866048750073685292303803550",
         "198030627578155901778469647491871211402", "1"]).allValid = true ∧
    Verifier.specSemanticAccepts exampleDomainBytes emptyObjectBytes 1
        [90488421641866048750073685292303803550,
         198030627578155901778469647491871211402, 1] = false := by
  exact ⟨by decide, by decide⟩

/-- C5: in the tail of GenerateProofNative a failed self-verification of the
fresh proof only appends the warning line; the wrapper with the proof bytes
is returned with no error, for every wrapper and every verification
failure - there is no fatal ProverInvariantViolated path in the code. -/
theorem c5_self_verify_failure_not_fatal (e : String)
    (w : Prover.NativeWrapper) :
    Prover.generateProofNativeFinish (some e) w =
      (["WARNING: Generated proof failed self-verification!"], Except.ok w) :=
  rfl

/-- C7: on the empty JSON object, the verifier-side split assigns the high
128 digest bits to part1 and the low bits to part2, while the prover-side
split assigns the low bits to p1 and the high bits to p2: the two sides
produce the same pair only in swapped order, not the same pair. -/
theorem c7_metadata_split_sides_swapped :
    Signals.hashToBigInts (sha256 emptyObjectBytes) =
      (0x44136fa355b3678a1146ad16f7e8649e, 0x94fb4fc21fe77e8310c060f61caaff8a) ∧
    Crypto.SplitMetadataHash emptyObjectBytes =
      (0x94fb4fc21fe77e8310c060f61caaff8a, 0x44136fa355b3678a1146ad16f7e8649e) ∧
    Signals.hashToBigInts (sha256 emptyObjectBytes) ≠
      Crypto.SplitMetadataHash emptyObjectBytes := by
  exact ⟨by decide, by decide, by decide⟩

/-- C8 counterexample: the hostname derived from the zero commitment hashes
the 32 zero bytes before base-27 encoding, so it is a 54-character label,
not xax. -/
theorem c8_zero_commitment_not_xax :
    Utils.DeriveHostnameFromCommitment "0" "ex.io" =
      Except.ok "xgjtwmmwvhljgccsfweutawym-owsnswmtydlqpwxkrijelvkkkrmlfx.ex.io" ∧
    ("xgjtwmmwvhljgccsfweutawym-owsnswmtydlqpwxkrijelvkkkrmlfx.ex.io" : String) ≠
      "xax.ex.io" := by
  exact ⟨by rfl, by decide⟩

/-- C8 as amended: the base-27 encoder does map integer zero to the single
character a, but hostname derivation hashes the 32-byte little-endian
commitment first, so the zero commitment yields the fixed label
x(base27(SHA-256(0^32)))x under every parent domain, not xax. -/
theorem c8_amended_zero_commitment_hostname (D : String) :
    Utils.DeriveHostnameFromCommitment "0" D =
      Except.ok ("x" ++ "gjtwmmwvhljgccsfweutawym-owsnswmtydlqpwxkrijelvkkkrmlf" ++
        "x." ++ D) ∧
    Utils.Base27 "0" = "a" := by
  exact ⟨by rfl, by rfl⟩

/-- C9: the replay check of the nonce store: an expiration before the
current clock reports not-fresh without touching the store; otherwise a
single set-if-absent with TTL equal to the remaining seconds reports fresh
exactly when the key was newly created and replayed exactly when it already
existed, leaving an existing store untouched. -/
theorem c9_check_and_set_nonce_contract (store : Nonce.StoreState)
    (nonce : String) (exp now : Int) :
    (exp < now →
      Nonce.CheckAndSetNonce store nonce exp now = ((false, none), store)) ∧
    (¬ exp < now → (store.find? fun e => e.1 == nonce) = none →
      Nonce.CheckAndSetNonce store nonce exp now =
        ((true, none), store ++ [(nonce, "1", exp - now)])) ∧
    (¬ exp < now → (store.find? fun e => e.1 == nonce).isSome = true →
      Nonce.CheckAndSetNonce store nonce exp now = ((false, none), store)) := by
  refine ⟨fun h => ?_, fun h hnone => ?_, fun h hsome => ?_⟩
  · unfold Nonce.CheckAndSetNonce
    rw [if_pos h]
  · unfold Nonce.CheckAndSetNonce Nonce.setNX
    rw [if_neg h]
    dsimp only
    rw [hnone]
    rfl
  · unfold Nonce.CheckAndSetNonce Nonce.setNX
    rw [if_neg h]
    dsimp only
    rw [if_pos hsome]

/-- Witness for C9 in all three outcomes at concrete stores and clocks. -/
theorem c9_witness :
    ((60 : Int) < 90 ∧
      Nonce.CheckAndSetNonce [] "abc" 60 90 = ((false, none), [])) ∧
    (¬ (60 : Int) < 0 ∧
      Nonce.CheckAndSetNonce [] "abc" 60 0 =
        ((true, none), [("abc", "1", 60)])) ∧
    (¬ (60 : Int) < 0 ∧
      Nonce.CheckAndSetNonce [("abc", "1", 60)] "abc" 60 0 =
        ((false, none), [("abc", "1", 60)])) :=
  ⟨⟨by decide, (c9_check_and_set_nonce_contract [] "abc" 60 90).1 (by decide)⟩,
   ⟨by decide, by
      have h := (c9_check_and_set_nonce_contract [] "abc" 60 0).2.1
        (by decide) (by decide)
      simpa using h⟩,
   ⟨by decide, by
      have h := (c9_check_and_set_nonce_contract [("abc", "1", 60)] "abc" 60 0).2.2
        (by decide) (by decide)
      simpa using h⟩⟩

/-- C10: when the parsed metadata has no string-valued nonce field, the
nonce-check block of the verification engine issues no store operation,
appends no error, does not return early, and leaves the running success flag
unchanged - for every store connection outcome and every hypothetical
check result. -/
theorem c10_missing_nonce_skips_replay_check (redisURL : String)
    (meta : Verifier.MetaObj) (connectOk : Bool)
    (checkResult : Bool × Option String) (success0 : Bool)
    (errors0 : List String)
    (hnonce : ∀ s, Verifier.metaGet meta "nonce" ≠ some (Verifier.GoVal.vstr s)) :
    Verifier.nonceCheckStep redisURL meta connectOk checkResult success0 errors0 =
      ⟨errors0, success0, false, []⟩ := by
  unfold Verifier.nonceCheckStep
  by_cases hurl : redisURL = ""
  · rw [if_pos hurl]
  · rw [if_neg hurl]
    rcases hm : Verifier.metaGet meta "nonce" with _ | v
    · rfl
    · cases v with
      | vstr s => exact absurd hm (hnonce s)
      | vnull => rfl
      | vbool b => rfl
      | vnum x => rfl
      | varr xs => rfl

/-- Witness for C10 with a numeric nonce field in the metadata. -/
theorem c10_witness :
    (∀ s, Verifier.metaGet [("nonce", Verifier.GoVal.vnum 7)] "nonce" ≠
        some (Verifier.GoVal.vstr s)) ∧
    Verifier.nonceCheckStep "redis://localhost:6379"
        [("nonce", Verifier.GoVal.vnum 7)] true (true, none) true [] =
      ⟨[], true, false, []⟩ :=
  ⟨(fun _ h => nomatch h),
   c10_missing_nonce_skips_replay_check "redis://localhost:6379"
     [("nonce", Verifier.GoVal.vnum 7)] true (true, none) true []
     (fun _ h => nomatch h)⟩

end Jesuit
